import Mathlib

/-!
A verification development for the mail-classifier backend
(`src/backend/index.js`).  The core pipeline — Gemini-based field
extraction (`extractInfoWithGemini`), deadline normalization
(`parseDeadline`), priority classification (`categorizeTask`) and batch
assembly (`processEmails`) — is shallowly embedded below.

Modelling conventions:
* Instants are milliseconds since the Unix epoch, as `Int` (JS `Date`
  stores exactly this; JS number arithmetic on these values is idealized
  as exact integer arithmetic).  The local timezone is modelled as a
  fixed zero offset (no DST), so `new Date(y,mo,d,h,mi,s)` and the
  `getFullYear/getMonth/getDate` accessors are civil-calendar
  conversions on the millisecond value.
* The civil-calendar conversions (`civilFromDays`, `daysFromCivil`)
  implement the proleptic Gregorian calendar exactly as ECMA-262
  specifies for `Date` (here via the standard era-decomposition
  algorithm).
* The Gemini network call (`model.generateContent` followed by
  `result.response.text()`) is a function `gen : String → Except Unit
  String`; `.error` models any exception thrown inside the `try` block
  (network/service error, or a response object whose text extraction
  fails).
* `new Date()` reads of the wall clock are modelled by a clock stream
  `clock : Nat → Int`; each successive `new Date()` in a pipeline run
  consumes the next tick.
* JS string methods are modelled on the ASCII fragment the pipeline
  manipulates (`toLowerCase`, `trim`, `split('\n')`, one-occurrence
  `replace`).
-/

namespace MailClassifier

/-! ## JS string primitives -/

/-- JS `String.prototype.toLowerCase` on the ASCII fragment. -/
def lowerChar (c : Char) : Char :=
  if 'A' ≤ c ∧ c ≤ 'Z' then Char.ofNat (c.toNat + 32) else c

/-- Whitespace as trimmed by `String.prototype.trim` (ASCII fragment). -/
def isSpaceChar (c : Char) : Bool :=
  c = ' ' || c = '\t' || c = '\n' || c = '\r'

/-- JS `String.prototype.trim`. -/
def trimChars (cs : List Char) : List Char :=
  ((cs.dropWhile isSpaceChar).reverse.dropWhile isSpaceChar).reverse

/-- The normalization `deadlineStr.toLowerCase().trim()` (index.js line 214). -/
def jsNormalize (s : String) : List Char :=
  trimChars (s.data.map lowerChar)

/-- JS `String.prototype.split('\n')`. -/
def splitNl : List Char → List (List Char)
  | [] => [[]]
  | c :: cs =>
    match splitNl cs with
    | [] => [[c]]
    | l :: ls => if c = '\n' then [] :: l :: ls else (c :: l) :: ls

/-- The line split `text.split('\n').filter(Boolean)` (index.js line 184): split into
lines and drop empty ones (`Boolean('')` is `false`). -/
def geminiLines (text : String) : List (List Char) :=
  (splitNl text.data).filter (fun l => l ≠ [])

/-- JS `String.prototype.replace(pat, '')` with a string pattern: remove the
first occurrence of `pat`, if any. -/
def replaceFirst : List Char → List Char → List Char
  | [], _ => []
  | c :: cs, pat =>
    if pat.isPrefixOf (c :: cs) then (c :: cs).drop pat.length
    else c :: replaceFirst cs pat

/-- Value of a decimal digit string (`parseInt(s, 10)` on an all-digit
string, idealized as exact). -/
def natOfDigits (ds : List Char) : Nat :=
  ds.foldl (fun a c => a * 10 + (c.toNat - 48)) 0

/-! ## Extraction adapter (`extractInfoWithGemini`, index.js 164-209) -/

structure ExtractedFields where
  eventType : String
  subject : String
  deadline : String
  urgency : String
  importance : String
  score : String
  registrationLink : String
  summary : String
deriving DecidableEq

/-- The prompt template (index.js 165-179); the email body is spliced in
by a template literal. -/
def buildPrompt (emailContent : String) : String :=
  "Analyze the email content and extract task details for classification into \"Urgent,\" \"Important,\" or \"Later\". Use today's date: 14/06/2025.\n\nReturn this format:\nEvent Type: <type>\nSubject: <subject>\nDeadline: <deadline>\nUrgency: <high/medium/low>\nImportance: <high/medium/low>\nScore: <score>\nRegistration Link: <link>\nSummary: <summary>\n\nEmail: \"" ++ emailContent ++ "\""

/-- The field read `lines[i]?.replace(label, '') || dflt` (index.js 187-194): take line
`i` if present, strip the first occurrence of the label, and substitute
the per-field default when the line is absent or empty after stripping
(`''` is falsy under `||`). -/
def lineField (lines : List (List Char)) (i : Nat) (label dflt : String) : String :=
  match lines[i]? with
  | none => dflt
  | some l =>
    let r := replaceFirst l label.data
    if r = [] then dflt else String.mk r

/-- The all-defaults record returned by the `catch` branch
(index.js 198-207). -/
def geminiFallback (subject : String) : ExtractedFields :=
  { eventType := "Email"
    subject := subject
    deadline := "none"
    urgency := "low"
    importance := "low"
    score := "none"
    registrationLink := "none"
    summary := "Could not extract information." }

/-- The adapter `extractInfoWithGemini(emailContent, subject)` (index.js 164-209).
`gen` is the Gemini call; an `.error` result models any exception inside
the `try` block. -/
def extractInfoWithGemini (gen : String → Except Unit String)
    (emailContent subject : String) : ExtractedFields :=
  match gen (buildPrompt emailContent) with
  | .error _ => geminiFallback subject
  | .ok text =>
    let lines := geminiLines text
    { eventType := lineField lines 0 "Event Type: " "Email"
      subject := lineField lines 1 "Subject: " subject
      deadline := lineField lines 2 "Deadline: " "none"
      urgency := lineField lines 3 "Urgency: " "low"
      importance := lineField lines 4 "Importance: " "low"
      score := lineField lines 5 "Score: " "none"
      registrationLink := lineField lines 6 "Registration Link: " "none"
      summary := lineField lines 7 "Summary: " "No summary." }

/-! ## Civil calendar (ECMA-262 `Date` conversions, fixed zero offset)

`civilFromDays`/`daysFromCivil` convert between a day number (days since
1970-01-01) and a proleptic-Gregorian civil date, by the standard
400-year-era decomposition; this is the arithmetic ECMA-262 specifies
for `Date` via `YearFromTime`/`MakeDay`. -/

/-- Numerator of the year-of-era formula. -/
def yoeNum (x : Nat) : Nat := x - x / 1460 + x / 36524 - x / 146096

/-- Year-of-era `[0, 399]` of a day-of-era `[0, 146096]`. -/
def yoeF (x : Nat) : Nat := yoeNum x / 365

/-- First day-of-era of a year-of-era (March-started years). -/
def startOfYoe (y : Nat) : Nat := 365 * y + y / 4 - y / 100

/-- Last day-of-era of a year-of-era. -/
def endOfYoe (y : Nat) : Nat := if y = 399 then 146096 else startOfYoe (y + 1) - 1

/-- Year (era-relative), month and day for a day-of-era
`doe ∈ [0, 146096]`.  Years here run March-to-February internally; the
returned year is in `[0, 400]`. -/
def civilOfDoe (doe : Nat) : Nat × Nat × Nat :=
  let yoe := yoeF doe
  let doy := doe - startOfYoe yoe
  let mp := (5 * doy + 2) / 153
  let d := doy - (153 * mp + 2) / 5 + 1
  let m := if mp < 10 then mp + 3 else mp - 9
  (if m ≤ 2 then yoe + 1 else yoe, m, d)

/-- Civil date `(year, month 1-12, day 1-31)` of a day number. -/
def civilFromDays (z : Int) : Int × Int × Int :=
  let era := (z + 719468) / 146097
  let doe := ((z + 719468) % 146097).toNat
  let p := civilOfDoe doe
  (era * 400 + (p.1 : Int), (p.2.1 : Int), (p.2.2 : Int))

/-- Day number of a civil date (ECMA-262 `MakeDay`; day and month may
arithmetically overflow their calendar ranges). -/
def daysFromCivil (y m d : Int) : Int :=
  let yy := y - (if m ≤ 2 then 1 else 0)
  let era := yy / 400
  let yoe := yy - era * 400
  let mp := if 2 < m then m - 3 else m + 9
  let doy := (153 * mp + 2) / 5 + d - 1
  let doe := 365 * yoe + yoe / 4 - yoe / 100 + doy
  era * 146097 + doe - 719468

def dayMs : Int := 86400000
def hourMs : Int := 3600000

/-- JS `new Date(y, mo, d, h, mi, s)` (local time = fixed zero offset);
`mo` is 0-based; a year in `[0, 99]` is mapped to `1900 + y` as the JS
`Date` constructor does. -/
def mkDateArgs (y mo d h mi s : Int) : Int :=
  let yy := if 0 ≤ y ∧ y ≤ 99 then y + 1900 else y
  daysFromCivil yy (mo + 1) d * dayMs + h * hourMs + mi * 60000 + s * 1000

/-! ## Deadline parser (`parseDeadline`, index.js 212-246)

The five `date-fns` format strings are embedded as token lists with
`date-fns` v2 `parse` semantics: numeric tokens `dd`, `MM`, `yyyy`,
`HH`, `mm` greedily take up to 2 (resp. 4) digits; `d` uses the
constrained pattern `(3[0-1]|[0-2]?\d)`; `MMMM`/`MMM` prefix-match the
first month name in list order, case-insensitively (input is already
lowercased); literal characters must match exactly; leftover input makes
the parse fail; parsed fields are validated (year ≥ 1, month 1-12, day
within the month, hours ≤ 23, minutes ≤ 59); units smaller than the
parsed ones are zeroed, so a format without `HH:mm` yields midnight. -/

inductive FmtTok where
  | ddTok | dTok | mmTok | yyyyTok | hhTok | minTok | monthWide | monthAbbr
  | lit (c : Char)
deriving DecidableEq

/-- Greedy match of up to `maxN` digits, at least one (`\d{1,n}`). -/
def takeDigits (maxN : Nat) (cs : List Char) : Option (Nat × List Char) :=
  let ds := (cs.takeWhile Char.isDigit).take maxN
  if ds = [] then none else some (natOfDigits ds, cs.drop ds.length)

/-- The `date-fns` numeric pattern for token `d`: `(3[0-1]|[0-2]?\d)`. -/
def matchDayPattern : List Char → Option (Nat × List Char)
  | [] => none
  | [c0] => if c0.isDigit then some (c0.toNat - 48, []) else none
  | c0 :: c1 :: rest =>
    if c0 = '3' ∧ (c1 = '0' ∨ c1 = '1') then some (30 + (c1.toNat - 48), rest)
    else if ('0' ≤ c0 ∧ c0 ≤ '2') ∧ c1.isDigit then
      some ((c0.toNat - 48) * 10 + (c1.toNat - 48), rest)
    else if c0.isDigit then some (c0.toNat - 48, c1 :: rest)
    else none

def wideMonths : List (List Char × Nat) :=
  [("january".data, 1), ("february".data, 2), ("march".data, 3), ("april".data, 4),
   ("may".data, 5), ("june".data, 6), ("july".data, 7), ("august".data, 8),
   ("september".data, 9), ("october".data, 10), ("november".data, 11), ("december".data, 12)]

def abbrMonths : List (List Char × Nat) :=
  [("jan".data, 1), ("feb".data, 2), ("mar".data, 3), ("apr".data, 4),
   ("may".data, 5), ("jun".data, 6), ("jul".data, 7), ("aug".data, 8),
   ("sep".data, 9), ("oct".data, 10), ("nov".data, 11), ("dec".data, 12)]

/-- Prefix-match the first month name in list order (regex alternation). -/
def matchMonthName : List (List Char × Nat) → List Char → Option (Nat × List Char)
  | [], _ => none
  | (name, v) :: rest, cs =>
    if name.isPrefixOf cs then some (v, cs.drop name.length)
    else matchMonthName rest cs

def matchTok : FmtTok → List Char → Option (Nat × List Char)
  | .lit c, x :: rest => if x = c then some (0, rest) else none
  | .lit _, [] => none
  | .ddTok, cs => takeDigits 2 cs
  | .mmTok, cs => takeDigits 2 cs
  | .yyyyTok, cs => takeDigits 4 cs
  | .hhTok, cs => takeDigits 2 cs
  | .minTok, cs => takeDigits 2 cs
  | .dTok, cs => matchDayPattern cs
  | .monthWide, cs => matchMonthName wideMonths cs
  | .monthAbbr, cs => matchMonthName abbrMonths cs

structure DateParts where
  y : Nat := 0
  mo : Nat := 0
  d : Nat := 0
  h : Nat := 0
  mi : Nat := 0
deriving DecidableEq

def applyTok (p : DateParts) : FmtTok → Nat → DateParts
  | .yyyyTok, v => { p with y := v }
  | .ddTok, v => { p with d := v }
  | .dTok, v => { p with d := v }
  | .mmTok, v => { p with mo := v }
  | .monthWide, v => { p with mo := v }
  | .monthAbbr, v => { p with mo := v }
  | .hhTok, v => { p with h := v }
  | .minTok, v => { p with mi := v }
  | .lit _, _ => p

/-- Run a format's tokens over the input; the whole input must be
consumed. -/
def runFmt : List FmtTok → List Char → DateParts → Option DateParts
  | [], [], p => some p
  | [], _ :: _, _ => none
  | t :: ts, cs, p =>
    match matchTok t cs with
    | none => none
    | some (v, rest) => runFmt ts rest (applyTok p t v)

/-- The `date-fns` leap-year rule. -/
def isLeapYearJs (y : Nat) : Bool :=
  (y % 4 = 0 && y % 100 ≠ 0) || y % 400 = 0

def daysInMonth (y mo : Nat) : Nat :=
  if mo = 2 then (if isLeapYearJs y then 29 else 28)
  else if mo = 4 ∨ mo = 6 ∨ mo = 9 ∨ mo = 11 then 30
  else 31

/-- The `date-fns` per-token validation (`isValid` on the parse result). -/
def validParts (p : DateParts) : Bool :=
  1 ≤ p.y && 1 ≤ p.mo && p.mo ≤ 12 && 1 ≤ p.d && p.d ≤ daysInMonth p.y p.mo &&
  p.h ≤ 23 && p.mi ≤ 59

/-- One `parse(deadlineStr, fmt, now)` attempt followed by `isValid` — `some parts`
iff the format matches and validates.  (The reference date `now` only
supplies units above the parsed granularity; every format here parses
year, month and day, and smaller units are zeroed by the setters, so the
result does not depend on `now`.) -/
def parseFmt (f : List FmtTok) (cs : List Char) : Option DateParts :=
  match runFmt f cs {} with
  | none => none
  | some p => if validParts p then some p else none

def fmtWithTime : List FmtTok :=
  [.ddTok, .lit '/', .mmTok, .lit '/', .yyyyTok, .lit ' ', .hhTok, .lit ':', .minTok]
def fmtSlash : List FmtTok := [.ddTok, .lit '/', .mmTok, .lit '/', .yyyyTok]
def fmtDash : List FmtTok := [.yyyyTok, .lit '-', .mmTok, .lit '-', .ddTok]
def fmtWide : List FmtTok := [.monthWide, .lit ' ', .dTok, .lit ',', .lit ' ', .yyyyTok]
def fmtAbbr : List FmtTok := [.ddTok, .lit ' ', .monthAbbr, .lit ' ', .yyyyTok]

/-- The `formats` array (index.js 234), each with whether it contains
`HH:mm`. -/
def formatsList : List (List FmtTok × Bool) :=
  [(fmtWithTime, true), (fmtSlash, false), (fmtDash, false), (fmtWide, false), (fmtAbbr, false)]

/-- Timestamp of a parsed date: midnight (or the parsed `HH:mm`) of the
civil date; `parsed.setHours(23, 59, 59)` (index.js 239) keeps the
millisecond field, which the parse setters zeroed. -/
def partsToInstant (p : DateParts) (hasTime : Bool) : Int :=
  daysFromCivil (p.y : Int) (p.mo : Int) (p.d : Int) * dayMs +
    (if hasTime then (p.h : Int) * hourMs + (p.mi : Int) * 60000 else 86399000)

/-- The `for (const fmt of formats)` loop (index.js 235-243): first
format that parses and validates wins; formats without `HH:mm` are
forced to 23:59:59. -/
def tryFormats : List (List FmtTok × Bool) → List Char → Option Int
  | [], _ => none
  | (f, hasTime) :: rest, cs =>
    match parseFmt f cs with
    | some p => some (partsToInstant p hasTime)
    | none => tryFormats rest cs

/-- Leftmost match of `/within (\d+) hours/` starting at the head of the
input: literal `"within "`, then a maximal nonempty digit run, then
`" hours"` (a shorter digit run cannot be followed by a space, so greedy
matching with backtracking accepts exactly this). -/
def withinAt (cs : List Char) : Option Nat :=
  if "within ".data.isPrefixOf cs then
    let rest := cs.drop 7
    let ds := rest.takeWhile Char.isDigit
    if ds = [] then none
    else if " hours".data.isPrefixOf (rest.drop ds.length) then some (natOfDigits ds)
    else none
  else none

/-- The regex search `deadlineStr.match(/within (\d+) hours/)` (index.js 229): leftmost
occurrence anywhere in the string. -/
def findWithin : List Char → Option Nat
  | [] => none
  | c :: cs =>
    match withinAt (c :: cs) with
    | some n => some n
    | none => findWithin cs

/-- The normalizer `parseDeadline(deadlineStr)` (index.js 212-246).  `now` is the
`new Date()` captured at line 213. -/
def parseDeadline (deadlineStr : String) (now : Int) : Int :=
  let ds := jsNormalize deadlineStr
  if ds = "today".data then
    let p := civilFromDays (now / dayMs)
    mkDateArgs p.1 (p.2.1 - 1) p.2.2 23 59 59
  else if ds = "tomorrow".data then now + dayMs
  else if ds = "day after tomorrow".data then now + 2 * dayMs
  else if ds = "none".data then now + 7 * dayMs
  else
    match findWithin ds with
    | some n => now + (n : Int) * hourMs
    | none =>
      match tryFormats formatsList ds with
      | some t => t
      | none => now + 7 * dayMs

/-! ## Priority classifier (`categorizeTask`, index.js 249-263) -/

/-- The literal label strings returned by `categorizeTask` (the source
file stores the emoji prefixes in this mojibake form). -/
def urgentLabel : String := "ðŸ”´ Urgent"
def importantLabel : String := "ðŸŸ¡ Important"
def laterLabel : String := "âšª Later"

/-- The `date-fns` `differenceInHours(deadline, now)`: millisecond
difference divided by 3600000, truncated toward zero (`Math.trunc`). -/
def wholeHoursBetween (deadline now : Int) : Int :=
  Int.tdiv (deadline - now) hourMs

/-- The classifier `categorizeTask(extracted, deadline)` (index.js 249-263).  `now` is
the `new Date()` captured at line 250. -/
def categorizeTask (extracted : ExtractedFields) (deadline : Int) (now : Int) : String :=
  let hoursLeft := wholeHoursBetween deadline now
  if hoursLeft ≤ 24 ∨ extracted.urgency = "high" then urgentLabel
  else if hoursLeft ≤ 72 ∨ extracted.importance = "high" then importantLabel
  else laterLabel

/-! ## ISO-8601 serialization (`Date.prototype.toISOString`) and parsing
(`Date.parse` on the date-time interchange format) -/

/-- Exactly `w` decimal digits of `n` (most significant first); valid
for `n < 10^w`. -/
def padNat : Nat → Nat → List Char
  | 0, _ => []
  | w + 1, n => Char.ofNat (48 + n / 10 ^ w) :: padNat w (n % 10 ^ w)

/-- Year field of `toISOString`: four digits for years 0-9999, otherwise
a sign and six digits (expanded years). -/
def yearChars (y : Int) : List Char :=
  if 0 ≤ y ∧ y ≤ 9999 then padNat 4 y.toNat
  else if y < 0 then '-' :: padNat 6 (-y).toNat
  else '+' :: padNat 6 y.toNat

/-- The character content of `t.toISOString()`:
`YYYY-MM-DDTHH:mm:ss.sssZ`. -/
def isoChars (t : Int) : List Char :=
  let p := civilFromDays (t / dayMs)
  let md := (t % dayMs).toNat
  yearChars p.1 ++
    '-' :: (padNat 2 p.2.1.toNat ++
    '-' :: (padNat 2 p.2.2.toNat ++
    'T' :: (padNat 2 (md / 3600000) ++
    ':' :: (padNat 2 (md / 60000 % 60) ++
    ':' :: (padNat 2 (md / 1000 % 60) ++
    '.' :: (padNat 3 (md % 1000) ++ ['Z']))))))

/-- The largest time value a JS `Date` represents (8.64e15 ms). -/
def maxTimeValue : Int := 8640000000000000

/-- The serialization `deadline.toISOString()` (index.js 150): `none` models the
`RangeError: Invalid time value` thrown on an out-of-range (invalid)
date. -/
def toISOString (t : Int) : Option String :=
  if -maxTimeValue ≤ t ∧ t ≤ maxTimeValue then some (String.mk (isoChars t))
  else none

/-- Read exactly `w` digits, most significant first. -/
def parseDigitsAux : Nat → Nat → List Char → Option (Nat × List Char)
  | 0, acc, cs => some (acc, cs)
  | w + 1, acc, c :: cs =>
    if c.isDigit then parseDigitsAux w (acc * 10 + (c.toNat - 48)) cs else none
  | _ + 1, _, [] => none

def parseExactDigits (w : Nat) (cs : List Char) : Option (Nat × List Char) :=
  parseDigitsAux w 0 cs

def expectChar (c : Char) : List Char → Option (List Char)
  | x :: rest => if x = c then some rest else none
  | [] => none

/-- Parse `-MM-DDTHH:mm:ss.sssZ` after the year and recombine into a
time value (ECMA-262 `MakeDay`/`MakeTime`). -/
def isoValue (y : Int) (m d h mi s ms : Nat) : Option Int :=
  if 1 ≤ m ∧ m ≤ 12 ∧ 1 ≤ d ∧ d ≤ 31 ∧ h ≤ 23 ∧ mi ≤ 59 ∧ s ≤ 59 then
    some (daysFromCivil y (m : Int) (d : Int) * dayMs +
      ((h : Int) * 3600000 + (mi : Int) * 60000 + (s : Int) * 1000 + (ms : Int)))
  else none

def parseIsoTimePart (y : Int) (m d : Nat) (cs : List Char) : Option Int :=
  match parseExactDigits 2 cs with
  | none => none
  | some (h, cs) =>
  match expectChar ':' cs with
  | none => none
  | some cs =>
  match parseExactDigits 2 cs with
  | none => none
  | some (mi, cs) =>
  match expectChar ':' cs with
  | none => none
  | some cs =>
  match parseExactDigits 2 cs with
  | none => none
  | some (s, cs) =>
  match expectChar '.' cs with
  | none => none
  | some cs =>
  match parseExactDigits 3 cs with
  | none => none
  | some (ms, cs) =>
  match expectChar 'Z' cs with
  | none => none
  | some cs => if cs = [] then isoValue y m d h mi s ms else none

def parseIsoTail (y : Int) (cs : List Char) : Option Int :=
  match expectChar '-' cs with
  | none => none
  | some cs =>
  match parseExactDigits 2 cs with
  | none => none
  | some (m, cs) =>
  match expectChar '-' cs with
  | none => none
  | some cs =>
  match parseExactDigits 2 cs with
  | none => none
  | some (d, cs) =>
  match expectChar 'T' cs with
  | none => none
  | some cs => parseIsoTimePart y m d cs

/-- JS `Date.parse` / `new Date(string)` on the ISO date-time interchange
format (with expanded years), as a time value. -/
def parseISO (str : String) : Option Int :=
  match str.data with
  | [] => none
  | c :: cs =>
    if c = '+' then
      match parseExactDigits 6 cs with
      | some (y, rest) => parseIsoTail (y : Int) rest
      | none => none
    else if c = '-' then
      match parseExactDigits 6 cs with
      | some (y, rest) => parseIsoTail (-(y : Int)) rest
      | none => none
    else
      match parseExactDigits 4 (c :: cs) with
      | some (y, rest) => parseIsoTail (y : Int) rest
      | none => none

/-! ## Batch pipeline (`processEmails`, index.js 124-161)

One email's subject/body extraction from the Gmail payload (headers,
base64 parts) happens before the core boundary; a batch input is a list
of `RawEmail`.  Per email the loop makes two wall-clock reads: the
`new Date()` inside `parseDeadline` (line 213) and the one inside
`categorizeTask` (line 250); email `i` therefore consumes clock ticks
`2*i` and `2*i + 1`. -/

structure RawEmail where
  subject : String
  body : String
deriving DecidableEq

structure Task where
  eventType : String
  subject : String
  deadline : String
  urgency : String
  importance : String
  score : String
  priority : String
  registrationLink : String
  summary : String
deriving DecidableEq

/-- The loop body for one email (index.js 143-157): extract, normalize
the deadline against `refNorm`, classify against `refClass`, serialize.
`none` models the `RangeError` thrown by `toISOString` on an
out-of-range deadline. -/
def assembleOne (gen : String → Except Unit String) (email : RawEmail)
    (refNorm refClass : Int) : Option Task :=
  let extracted := extractInfoWithGemini gen email.body email.subject
  let deadline := parseDeadline extracted.deadline refNorm
  let priority := categorizeTask extracted deadline refClass
  match toISOString deadline with
  | none => none
  | some iso =>
    some { eventType := extracted.eventType
           subject := extracted.subject
           deadline := iso
           urgency := extracted.urgency
           importance := extracted.importance
           score := extracted.score
           priority := priority
           registrationLink := extracted.registrationLink
           summary := extracted.summary }

/-- The `for (const email of emails)` loop, threading the clock tick. -/
def processEmailsAux (clock : Nat → Int) (gen : String → Except Unit String) :
    List RawEmail → Nat → Except Unit (List Task)
  | [], _ => .ok []
  | e :: es, tick =>
    match assembleOne gen e (clock tick) (clock (tick + 1)) with
    | none => .error ()
    | some task =>
      match processEmailsAux clock gen es (tick + 2) with
      | .error u => .error u
      | .ok rest => .ok (task :: rest)

/-- The batch loop `processEmails(emails)` (index.js 124-161).  An uncaught exception
(the serialization `RangeError`) aborts the batch and propagates, which
`.error` models. -/
def processEmails (clock : Nat → Int) (gen : String → Except Unit String)
    (emails : List RawEmail) : Except Unit (List Task) :=
  processEmailsAux clock gen emails 0

/-- Modelled from the spec (§5): the reference "now" instant "must be
captured once per run and threaded through Normalizer and Classifier
consistently".  This is the single-captured-reference batch semantics
the spec describes; the source has no such threading (each of
`parseDeadline` and `categorizeTask` captures its own `new Date()`). -/
def processEmailsSingleReference (reference : Int)
    (gen : String → Except Unit String) : List RawEmail → Except Unit (List Task)
  | [] => .ok []
  | e :: es =>
    match assembleOne gen e reference reference with
    | none => .error ()
    | some task =>
      match processEmailsSingleReference reference gen es with
      | .error u => .error u
      | .ok rest => .ok (task :: rest)

/-- Modelled from the spec (§4.2): the classification rule as the spec
words it — `Urgent` when `hoursLeft ≤ 24` or the urgency hint is high,
else `Important` when `hoursLeft ≤ 72` or the importance hint is high,
else `Later`; the branches evaluated in this order. -/
def classifySpec (hoursLeft : Int) (urgencyHint importanceHint : String) : String :=
  if hoursLeft ≤ 24 ∨ urgencyHint = "high" then urgentLabel
  else if hoursLeft ≤ 72 ∨ importanceHint = "high" then importantLabel
  else laterLabel

instance {ε α : Type} [DecidableEq ε] [DecidableEq α] : DecidableEq (Except ε α) :=
  fun x y =>
    match x, y with
    | .ok a, .ok b =>
      if h : a = b then .isTrue (by rw [h]) else .isFalse (fun hc => h (Except.ok.inj hc))
    | .error a, .error b =>
      if h : a = b then .isTrue (by rw [h]) else .isFalse (fun hc => h (Except.error.inj hc))
    | .ok _, .error _ => .isFalse (fun hc => Except.noConfusion hc)
    | .error _, .ok _ => .isFalse (fun hc => Except.noConfusion hc)

end MailClassifier

namespace MailClassifier

/-! ## Calendar correctness

`daysFromCivil` is a left inverse of `civilFromDays`.  The year-of-era
formula is handled by monotonicity plus evaluation at the 400 year
boundaries; the month/day arithmetic is linear and dispatched by
`omega`. -/

theorem yoeNum_mono {a b : Nat} (h : a ≤ b) : yoeNum a ≤ yoeNum b := by
  unfold yoeNum
  have ha : a / 146096 = a / 36524 / 4 := by rw [Nat.div_div_eq_div_mul]
  have hb : b / 146096 = b / 36524 / 4 := by rw [Nat.div_div_eq_div_mul]
  have h1 : a - a / 1460 ≤ b - b / 1460 := by omega
  have hq : a / 36524 ≤ b / 36524 := Nat.div_le_div_right h
  have h2 : a / 36524 - a / 36524 / 4 ≤ b / 36524 - b / 36524 / 4 := by omega
  omega

theorem yoeF_mono {a b : Nat} (h : a ≤ b) : yoeF a ≤ yoeF b :=
  Nat.div_le_div_right (yoeNum_mono h)

set_option maxRecDepth 10000 in
theorem yoe_endpoints : ∀ y, y < 400 → yoeF (startOfYoe y) = y ∧ yoeF (endOfYoe y) = y := by
  decide

theorem yoe_facts (doe : Nat) (h : doe < 146097) :
    startOfYoe (yoeF doe) ≤ doe ∧ doe - startOfYoe (yoeF doe) ≤ 365 ∧ yoeF doe ≤ 399 := by
  have h399 : yoeF 146096 = 399 := by
    have := (yoe_endpoints 399 (by omega)).2
    simpa [endOfYoe] using this
  have hv399 : yoeF doe ≤ 399 := by
    have := yoeF_mono (a := doe) (b := 146096) (by omega)
    omega
  have hstart : startOfYoe (yoeF doe) ≤ doe := by
    by_contra hlt
    push_neg at hlt
    rcases Nat.eq_zero_or_pos (yoeF doe) with h0 | hpos
    · rw [h0] at hlt
      simp [startOfYoe] at hlt
    · have hv1 : yoeF doe - 1 < 400 := by omega
      have hend := (yoe_endpoints (yoeF doe - 1) hv1).2
      have hne : yoeF doe - 1 ≠ 399 := by omega
      rw [endOfYoe, if_neg hne] at hend
      have heq : yoeF doe - 1 + 1 = yoeF doe := by omega
      rw [heq] at hend
      have hmono := yoeF_mono (a := doe) (b := startOfYoe (yoeF doe) - 1) (by omega)
      omega
  refine ⟨hstart, ?_, hv399⟩
  by_contra hbig
  push_neg at hbig
  rcases Nat.lt_or_ge (yoeF doe) 399 with hlt399 | hge399
  · have hstep : startOfYoe (yoeF doe + 1) ≤ startOfYoe (yoeF doe) + 366 := by
      unfold startOfYoe
      omega
    have he := (yoe_endpoints (yoeF doe + 1) (by omega)).1
    have hmono := yoeF_mono (a := startOfYoe (yoeF doe + 1)) (b := doe) (by omega)
    omega
  · have h399' : yoeF doe = 399 := by omega
    rw [h399'] at hbig
    have : startOfYoe 399 = 145731 := by decide
    omega

theorem civilParts_spec (doe yoe doy mp dd m yy : Nat)
    (hyoe399 : yoe ≤ 399) (hstart : startOfYoe yoe ≤ doe)
    (hdoy : doy = doe - startOfYoe yoe) (hdoy365 : doy ≤ 365)
    (hmp : mp = (5 * doy + 2) / 153)
    (hd : dd = doy - (153 * mp + 2) / 5 + 1)
    (hm : m = if mp < 10 then mp + 3 else mp - 9)
    (hy : yy = if m ≤ 2 then yoe + 1 else yoe) :
    1 ≤ m ∧ m ≤ 12 ∧ 1 ≤ dd ∧ dd ≤ 31 ∧
    (if m ≤ 2 then 1 else 0) ≤ yy ∧ yy - (if m ≤ 2 then 1 else 0) ≤ 399 ∧
    startOfYoe (yy - (if m ≤ 2 then 1 else 0)) +
      ((153 * (if 2 < m then m - 3 else m + 9) + 2) / 5 + dd - 1) = doe := by
  have hmp11 : mp ≤ 11 := by omega
  by_cases hc : mp < 10
  · rw [if_pos hc] at hm
    have h2 : ¬m ≤ 2 := by omega
    rw [if_neg h2] at hy
    subst hy
    rw [if_neg h2, if_pos (show 2 < m by omega), Nat.sub_zero,
      show m - 3 = mp by omega]
    unfold startOfYoe at hstart hdoy ⊢
    omega
  · rw [if_neg hc] at hm
    have h2 : m ≤ 2 := by omega
    rw [if_pos h2] at hy
    subst hy
    rw [if_pos h2, if_neg (show ¬2 < m by omega), Nat.add_sub_cancel,
      show m + 9 = mp by omega]
    unfold startOfYoe at hstart hdoy ⊢
    omega

set_option maxHeartbeats 1600000 in
theorem civilOfDoe_spec (doe : Nat) (h : doe < 146097) :
    1 ≤ (civilOfDoe doe).2.1 ∧ (civilOfDoe doe).2.1 ≤ 12 ∧
    1 ≤ (civilOfDoe doe).2.2 ∧ (civilOfDoe doe).2.2 ≤ 31 ∧
    (if (civilOfDoe doe).2.1 ≤ 2 then 1 else 0) ≤ (civilOfDoe doe).1 ∧
    (civilOfDoe doe).1 - (if (civilOfDoe doe).2.1 ≤ 2 then 1 else 0) ≤ 399 ∧
    startOfYoe ((civilOfDoe doe).1 - (if (civilOfDoe doe).2.1 ≤ 2 then 1 else 0)) +
      ((153 * (if 2 < (civilOfDoe doe).2.1 then (civilOfDoe doe).2.1 - 3
                else (civilOfDoe doe).2.1 + 9) + 2) / 5 +
        (civilOfDoe doe).2.2 - 1) = doe := by
  obtain ⟨hstart, hdoy365, hyoe399⟩ := yoe_facts doe h
  simp only [civilOfDoe]
  exact civilParts_spec doe (yoeF doe) (doe - startOfYoe (yoeF doe))
    ((5 * (doe - startOfYoe (yoeF doe)) + 2) / 153) _ _ _
    hyoe399 hstart rfl hdoy365 rfl rfl rfl rfl

theorem daysFromCivil_shift (era : Int) (yy m dd doe : Nat)
    (h1 : 1 ≤ m) (h3 : 1 ≤ dd)
    (hind : (if m ≤ 2 then 1 else 0) ≤ yy)
    (hyoe : yy - (if m ≤ 2 then 1 else 0) ≤ 399)
    (hinv : startOfYoe (yy - (if m ≤ 2 then 1 else 0)) +
      ((153 * (if 2 < m then m - 3 else m + 9) + 2) / 5 + dd - 1) = doe) :
    daysFromCivil (era * 400 + (yy : Int)) (m : Int) (dd : Int)
      = era * 146097 + (doe : Int) - 719468 := by
  simp only [daysFromCivil, startOfYoe] at *
  by_cases hm2 : m ≤ 2
  · rw [if_pos hm2] at hind hyoe hinv
    rw [if_neg (show ¬2 < m by omega)] at hinv
    rw [if_pos (show (m : Int) ≤ 2 by exact_mod_cast hm2),
      if_neg (show ¬(2 : Int) < (m : Int) by exact_mod_cast (show ¬2 < m by omega))]
    omega
  · rw [if_neg hm2] at hind hyoe hinv
    rw [if_pos (show 2 < m by omega)] at hinv
    rw [if_neg (show ¬(m : Int) ≤ 2 by exact_mod_cast hm2),
      if_pos (show (2 : Int) < (m : Int) by exact_mod_cast (show 2 < m by omega))]
    omega

/-- Inverse property: `daysFromCivil` inverts `civilFromDays`: the civil-calendar
round-trip at the heart of the ISO serialization round-trip. -/
theorem daysFromCivil_civilFromDays (z : Int) :
    daysFromCivil (civilFromDays z).1 (civilFromDays z).2.1 (civilFromDays z).2.2 = z := by
  have hdoe0 : 0 ≤ (z + 719468) % 146097 := Int.emod_nonneg _ (by norm_num)
  have hdoe1 : (z + 719468) % 146097 < 146097 := Int.emod_lt_of_pos _ (by norm_num)
  have hcast : ((((z + 719468) % 146097).toNat : Int)) = (z + 719468) % 146097 :=
    Int.toNat_of_nonneg hdoe0
  have hlt : ((z + 719468) % 146097).toNat < 146097 := by omega
  obtain ⟨hm1, hm12, hd1, hd31, hind, hyoe, hinv⟩ :=
    civilOfDoe_spec ((z + 719468) % 146097).toNat hlt
  simp only [civilFromDays]
  rw [daysFromCivil_shift _ _ _ _ _ hm1 hd1 hind hyoe hinv]
  omega

/-! ## Decimal digit printing and parsing -/

theorem digitChar_spec (q : Nat) (h : q < 10) :
    (Char.ofNat (48 + q)).isDigit = true ∧ (Char.ofNat (48 + q)).toNat = 48 + q ∧
    Char.ofNat (48 + q) ≠ '+' ∧ Char.ofNat (48 + q) ≠ '-' := by
  interval_cases q <;> exact ⟨by decide, by decide, by decide, by decide⟩

theorem parseDigitsAux_pad (w : Nat) : ∀ (acc n : Nat) (rest : List Char), n < 10 ^ w →
    parseDigitsAux w acc (padNat w n ++ rest) = some (acc * 10 ^ w + n, rest) := by
  induction w with
  | zero =>
    intro acc n rest h
    have hn : n = 0 := by simpa using h
    subst hn
    simp [padNat, parseDigitsAux]
  | succ w ih =>
    intro acc n rest h
    have hpos : 0 < 10 ^ w := Nat.pos_pow_of_pos w (by omega)
    have hq : n / 10 ^ w < 10 := by
      rw [Nat.div_lt_iff_lt_mul hpos]
      rw [Nat.pow_succ] at h
      omega
    obtain ⟨hdig, htn, _, _⟩ := digitChar_spec _ hq
    rw [padNat, List.cons_append, parseDigitsAux, if_pos hdig, htn,
      Nat.add_sub_cancel_left, ih _ _ _ (Nat.mod_lt _ hpos)]
    have hvalue : (acc * 10 + n / 10 ^ w) * 10 ^ w + n % 10 ^ w = acc * 10 ^ (w + 1) + n := by
      have hdm := Nat.div_add_mod n (10 ^ w)
      calc (acc * 10 + n / 10 ^ w) * 10 ^ w + n % 10 ^ w
          = acc * (10 ^ w * 10) + (10 ^ w * (n / 10 ^ w) + n % 10 ^ w) := by ring
        _ = acc * 10 ^ (w + 1) + n := by rw [hdm, Nat.pow_succ]
    rw [hvalue]

theorem parseExactDigits_pad (w n : Nat) (rest : List Char) (h : n < 10 ^ w) :
    parseExactDigits w (padNat w n ++ rest) = some (n, rest) := by
  have := parseDigitsAux_pad w 0 n rest h
  simpa [parseExactDigits] using this

theorem expectChar_cons (c : Char) (cs : List Char) : expectChar c (c :: cs) = some cs := by
  simp [expectChar]

theorem parseIsoTimePart_pad (y : Int) (m d h mi s ms : Nat)
    (hh : h < 100) (hmi : mi < 100) (hs : s < 100) (hms : ms < 1000) :
    parseIsoTimePart y m d
      (padNat 2 h ++ ':' :: (padNat 2 mi ++ ':' :: (padNat 2 s ++ '.' :: (padNat 3 ms ++ ['Z']))))
      = isoValue y m d h mi s ms := by
  unfold parseIsoTimePart
  rw [parseExactDigits_pad 2 h _ (by norm_num; omega)]
  dsimp only
  rw [expectChar_cons]
  dsimp only
  rw [parseExactDigits_pad 2 mi _ (by norm_num; omega)]
  dsimp only
  rw [expectChar_cons]
  dsimp only
  rw [parseExactDigits_pad 2 s _ (by norm_num; omega)]
  dsimp only
  rw [expectChar_cons]
  dsimp only
  rw [parseExactDigits_pad 3 ms _ (by norm_num; omega)]
  dsimp only
  rw [expectChar_cons]
  dsimp only
  rw [if_pos rfl]

theorem parseIsoTail_pad (y : Int) (m d : Nat) (cs : List Char)
    (hm : m < 100) (hd : d < 100) :
    parseIsoTail y ('-' :: (padNat 2 m ++ '-' :: (padNat 2 d ++ 'T' :: cs)))
      = parseIsoTimePart y m d cs := by
  unfold parseIsoTail
  rw [expectChar_cons]
  dsimp only
  rw [parseExactDigits_pad 2 m _ (by norm_num; omega)]
  dsimp only
  rw [expectChar_cons]
  dsimp only
  rw [parseExactDigits_pad 2 d _ (by norm_num; omega)]
  dsimp only
  rw [expectChar_cons]

theorem civilFromDays_bounds (z : Int) (h1 : -100000000 ≤ z) (h2 : z ≤ 100000000) :
    -280000 ≤ (civilFromDays z).1 ∧ (civilFromDays z).1 ≤ 280000 ∧
    1 ≤ (civilFromDays z).2.1 ∧ (civilFromDays z).2.1 ≤ 12 ∧
    1 ≤ (civilFromDays z).2.2 ∧ (civilFromDays z).2.2 ≤ 31 := by
  have hdoe0 : 0 ≤ (z + 719468) % 146097 := Int.emod_nonneg _ (by norm_num)
  have hlt : ((z + 719468) % 146097).toNat < 146097 := by
    have := Int.emod_lt_of_pos (z + 719468) (show (0:Int) < 146097 by norm_num)
    omega
  obtain ⟨hm1, hm12, hd1, hd31, hind, hyoe, _⟩ :=
    civilOfDoe_spec ((z + 719468) % 146097).toNat hlt
  have hy400 : (civilOfDoe ((z + 719468) % 146097).toNat).1 ≤ 400 := by
    rcases le_or_lt (civilOfDoe ((z + 719468) % 146097).toNat).2.1 2 with hle | hgt
    · rw [if_pos hle] at hyoe
      omega
    · rw [if_neg (by omega)] at hyoe
      omega
  simp only [civilFromDays]
  refine ⟨?_, ?_, by exact_mod_cast hm1, by exact_mod_cast hm12,
    by exact_mod_cast hd1, by exact_mod_cast hd31⟩ <;> omega

/-- The ISO round-trip on characters: parsing the printed form of any
representable time value recovers it exactly. -/
theorem parseISO_isoChars (t : Int)
    (h1 : -maxTimeValue ≤ t) (h2 : t ≤ maxTimeValue) :
    parseISO (String.mk (isoChars t)) = some t := by
  have hz1 : (-100000000 : Int) ≤ t / dayMs := by
    simp only [dayMs]
    simp only [maxTimeValue] at h1 h2
    omega
  have hz2 : t / dayMs ≤ 100000000 := by
    simp only [dayMs]
    simp only [maxTimeValue] at h1 h2
    omega
  obtain ⟨hb1, hb2, hb3, hb4, hb5, hb6⟩ := civilFromDays_bounds (t / dayMs) hz1 hz2
  have hmd0 : 0 ≤ t % dayMs := Int.emod_nonneg _ (by simp [dayMs])
  have hmdlt : t % dayMs < 86400000 := by
    have := Int.emod_lt_of_pos t (show (0:Int) < dayMs by simp [dayMs])
    simpa [dayMs] using this
  have hmN : ((civilFromDays (t / dayMs)).2.1.toNat : Int) = (civilFromDays (t / dayMs)).2.1 :=
    Int.toNat_of_nonneg (by omega)
  have hdN : ((civilFromDays (t / dayMs)).2.2.toNat : Int) = (civilFromDays (t / dayMs)).2.2 :=
    Int.toNat_of_nonneg (by omega)
  have hmN100 : (civilFromDays (t / dayMs)).2.1.toNat < 100 := by omega
  have hdN100 : (civilFromDays (t / dayMs)).2.2.toNat < 100 := by omega
  have hfinal : ∀ yv : Int, yv = (civilFromDays (t / dayMs)).1 →
      isoValue yv (civilFromDays (t / dayMs)).2.1.toNat (civilFromDays (t / dayMs)).2.2.toNat
        ((t % dayMs).toNat / 3600000) ((t % dayMs).toNat / 60000 % 60)
        ((t % dayMs).toNat / 1000 % 60) ((t % dayMs).toNat % 1000) = some t := by
    intro yv hyv
    subst hyv
    unfold isoValue
    rw [if_pos (by omega)]
    rw [hmN, hdN, daysFromCivil_civilFromDays (t / dayMs)]
    congr 1
    simp only [dayMs]
    omega
  simp only [parseISO, isoChars]
  by_cases hy : 0 ≤ (civilFromDays (t / dayMs)).1 ∧ (civilFromDays (t / dayMs)).1 ≤ 9999
  · rw [yearChars, if_pos hy]
    have hyn : (civilFromDays (t / dayMs)).1.toNat < 10000 := by omega
    have hq : (civilFromDays (t / dayMs)).1.toNat / 10 ^ 3 < 10 := by omega
    obtain ⟨_, _, hne1, hne2⟩ := digitChar_spec _ hq
    rw [padNat, List.cons_append]
    dsimp only
    rw [if_neg hne1, if_neg hne2, ← List.cons_append,
      show (Char.ofNat (48 + (civilFromDays (t / dayMs)).1.toNat / 10 ^ 3) ::
          padNat 3 ((civilFromDays (t / dayMs)).1.toNat % 10 ^ 3))
        = padNat 4 (civilFromDays (t / dayMs)).1.toNat from rfl,
      parseExactDigits_pad 4 _ _ (by norm_num; omega)]
    dsimp only
    rw [parseIsoTail_pad _ _ _ _ hmN100 hdN100,
      parseIsoTimePart_pad _ _ _ _ _ _ _ (by omega) (by omega) (by omega) (by omega)]
    exact hfinal _ (by omega)
  · by_cases hneg : (civilFromDays (t / dayMs)).1 < 0
    · rw [yearChars, if_neg hy, if_pos hneg, List.cons_append]
      dsimp only
      rw [if_neg (by decide), if_pos rfl,
        parseExactDigits_pad 6 _ _ (by norm_num; omega)]
      dsimp only
      rw [parseIsoTail_pad _ _ _ _ hmN100 hdN100,
        parseIsoTimePart_pad _ _ _ _ _ _ _ (by omega) (by omega) (by omega) (by omega)]
      exact hfinal _ (by omega)
    · rw [yearChars, if_neg hy, if_neg hneg, List.cons_append]
      dsimp only
      rw [if_pos rfl, parseExactDigits_pad 6 _ _ (by norm_num; omega)]
      dsimp only
      rw [parseIsoTail_pad _ _ _ _ hmN100 hdN100,
        parseIsoTimePart_pad _ _ _ _ _ _ _ (by omega) (by omega) (by omega) (by omega)]
      exact hfinal _ (by omega)

/-- Successful serialization implies an exact parse back. -/
theorem toISOString_roundTrip (t : Int) (s : String) (h : toISOString t = some s) :
    parseISO s = some t := by
  unfold toISOString at h
  by_cases hr : -maxTimeValue ≤ t ∧ t ≤ maxTimeValue
  · rw [if_pos hr] at h
    obtain ⟨rfl⟩ := Option.some.inj h
    exact parseISO_isoChars t hr.1 hr.2
  · rw [if_neg hr] at h
    exact absurd h (by simp)

/-! ## Batch pipeline structure -/

theorem processEmailsAux_spec (clock : Nat → Int) (gen : String → Except Unit String) :
    ∀ (es : List RawEmail) (tick : Nat),
      (∀ i, i < es.length →
        (es[i]?).bind (fun e => assembleOne gen e (clock (tick + 2 * i)) (clock (tick + 2 * i + 1)))
          ≠ none) →
      ∃ ts : List Task, processEmailsAux clock gen es tick = .ok ts ∧
        ts.length = es.length ∧
        ∀ i : Nat, ts[i]? =
          (es[i]?).bind (fun e =>
            assembleOne gen e (clock (tick + 2 * i)) (clock (tick + 2 * i + 1))) := by
  intro es
  induction es with
  | nil =>
    intro tick _
    exact ⟨[], rfl, rfl, fun i => by simp⟩
  | cons e es ih =>
    intro tick hsome
    have h0 := hsome 0 (by simp)
    simp only [List.getElem?_cons_zero, Option.some_bind] at h0
    obtain ⟨task, htask⟩ := Option.ne_none_iff_exists'.mp (by simpa using h0)
    have hshift : ∀ i, i < es.length →
        (es[i]?).bind (fun e' =>
          assembleOne gen e' (clock (tick + 2 + 2 * i)) (clock (tick + 2 + 2 * i + 1))) ≠ none := by
      intro i hi
      have hnext := hsome (i + 1) (by simpa using hi)
      simpa only [List.getElem?_cons_succ,
        show tick + 2 * (i + 1) = tick + 2 + 2 * i from by omega,
        show tick + 2 + 2 * i + 1 = tick + 2 + 2 * i + 1 from rfl] using hnext
    obtain ⟨ts, hts, hlen, hidx⟩ := ih (tick + 2) hshift
    refine ⟨task :: ts, ?_, by simpa using hlen, ?_⟩
    · unfold processEmailsAux
      rw [htask, hts]
    · intro i
      match i with
      | 0 =>
        simp only [List.getElem?_cons_zero, Option.some_bind]
        rw [show tick + 2 * 0 = tick from by omega,
          show tick + 2 * 0 + 1 = tick + 1 from by omega]
        exact htask.symm
      | i + 1 =>
        simp only [List.getElem?_cons_succ]
        rw [hidx i]
        simp only [show tick + 2 * (i + 1) = tick + 2 + 2 * i from by omega]

theorem processEmailsAux_mem (clock : Nat → Int) (gen : String → Except Unit String) :
    ∀ (es : List RawEmail) (tick : Nat) (ts : List Task),
      processEmailsAux clock gen es tick = .ok ts →
      ∀ task ∈ ts, ∃ t : Int, toISOString t = some task.deadline := by
  intro es
  induction es with
  | nil =>
    intro tick ts h task hmem
    simp only [processEmailsAux] at h
    obtain ⟨rfl⟩ := Except.ok.inj h
    simp at hmem
  | cons e es ih =>
    intro tick ts h task hmem
    simp only [processEmailsAux] at h
    match hae : assembleOne gen e (clock tick) (clock (tick + 1)) with
    | none => rw [hae] at h; exact absurd h (by simp)
    | some task0 =>
      rw [hae] at h
      match hrest : processEmailsAux clock gen es (tick + 2) with
      | .error u => rw [hrest] at h; exact absurd h (by simp)
      | .ok ts' =>
        rw [hrest] at h
        obtain ⟨rfl⟩ := Except.ok.inj h
        rcases List.mem_cons.mp hmem with rfl | hmem'
        · simp only [assembleOne] at hae
          match hiso : toISOString (parseDeadline
              (extractInfoWithGemini gen e.body e.subject).deadline (clock tick)) with
          | none => rw [hiso] at hae; exact absurd hae (by simp)
          | some iso =>
            rw [hiso] at hae
            obtain ⟨rfl⟩ := Option.some.inj hae
            exact ⟨_, hiso⟩
        · exact ih (tick + 2) ts' hrest task hmem'

/-- Every format failing to parse makes the format loop fail. -/
theorem tryFormats_none (fs : List (List FmtTok × Bool)) (cs : List Char)
    (h : ∀ f ∈ fs, parseFmt f.1 cs = none) : tryFormats fs cs = none := by
  induction fs with
  | nil => rfl
  | cons f fs ih =>
    obtain ⟨fmt, b⟩ := f
    unfold tryFormats
    have h0 : parseFmt fmt cs = none := h (fmt, b) (by simp)
    rw [h0]
    exact ih (fun g hg => h g (by simp [hg]))

/-- A date built by `new Date(y, mo, d, 23, 59, 59)` always lands at local 23:59:59.000:
its time-of-day in milliseconds is 86399000. -/
theorem mkDateArgs_endOfDay (y mo d : Int) :
    mkDateArgs y mo d 23 59 59 % dayMs = 86399000 := by
  simp only [mkDateArgs, dayMs, hourMs]
  generalize daysFromCivil (if 0 ≤ y ∧ y ≤ 99 then y + 1900 else y) (mo + 1) d = D
  omega

/-- With a clock that never advances, the per-call `new Date()` reads
collapse to the spec's single captured reference. -/
theorem processEmailsAux_const (c : Int) (gen : String → Except Unit String)
    (es : List RawEmail) :
    ∀ tick, processEmailsAux (fun _ => c) gen es tick
      = processEmailsSingleReference c gen es := by
  induction es with
  | nil => intro tick; rfl
  | cons e es ih =>
    intro tick
    unfold processEmailsAux processEmailsSingleReference
    rw [ih (tick + 2)]

/-! ## The claims -/

/-- Claim C1: for every deadline, reference instant and pair of hints,
`categorizeTask` returns Urgent when `wholeHoursBetween(deadline,
reference) ≤ 24` or the urgency hint is `"high"`; otherwise Important
when `hoursLeft ≤ 72` or the importance hint is `"high"`; otherwise
Later — exactly the spec's rule (`classifySpec`), with the first
satisfied branch winning.  A task urgent by time and also flagged high
importance is labeled only Urgent, and a deadline already passed
(negative difference) yields Urgent; the three labels are pairwise
distinct. -/
theorem claim_C1_classifier (extracted : ExtractedFields) (deadline reference : Int) :
    categorizeTask extracted deadline reference
      = classifySpec (wholeHoursBetween deadline reference)
          extracted.urgency extracted.importance
    ∧ (deadline - reference < 0 → categorizeTask extracted deadline reference = urgentLabel)
    ∧ (wholeHoursBetween deadline reference ≤ 24 → extracted.importance = "high" →
        categorizeTask extracted deadline reference = urgentLabel)
    ∧ urgentLabel ≠ importantLabel ∧ urgentLabel ≠ laterLabel
    ∧ importantLabel ≠ laterLabel := by
  refine ⟨rfl, ?_, ?_, by decide, by decide, by decide⟩
  · intro hneg
    have h1 : 0 ≤ (-(deadline - reference)).tdiv hourMs :=
      Int.tdiv_nonneg (by omega) (by norm_num [hourMs])
    rw [Int.neg_tdiv] at h1
    unfold categorizeTask wholeHoursBetween
    rw [if_pos (Or.inl (by omega))]
  · intro h24 _
    unfold categorizeTask
    rw [if_pos (Or.inl h24)]

/-- Witness for C1 at concrete inputs: a deadline one hour in the past
is Urgent, and a task 0 hours away flagged high importance is labeled
only Urgent. -/
theorem claim_C1_witness :
    categorizeTask (geminiFallback "s") 0 3600000 = urgentLabel ∧
    categorizeTask { geminiFallback "s" with importance := "high" } 0 0 = urgentLabel :=
  ⟨(claim_C1_classifier (geminiFallback "s") 0 3600000).2.1 (by decide),
   (claim_C1_classifier { geminiFallback "s" with importance := "high" } 0 0).2.2.1
     (by decide) rfl⟩

/-- Claim C2: `extractInfoWithGemini` never raises past its boundary —
whenever the Gemini call throws (network/service error, or a response
whose text extraction fails), it returns the all-defaults record built
from the original subject with `eventType = "Email"`,
`deadlineText = "none"`, hints `low`, `score = "none"`,
`registrationLink = "none"`, `summary = "Could not extract
information."`. -/
theorem claim_C2_extract_fallback (gen : String → Except Unit String)
    (emailContent subject : String)
    (h : gen (buildPrompt emailContent) = .error ()) :
    extractInfoWithGemini gen emailContent subject =
      { eventType := "Email", subject := subject, deadline := "none", urgency := "low",
        importance := "low", score := "none", registrationLink := "none",
        summary := "Could not extract information." } := by
  unfold extractInfoWithGemini
  rw [h]
  rfl

/-- Witness for C2: a concrete failing Gemini call yields exactly the
fallback record. -/
theorem claim_C2_witness :
    extractInfoWithGemini (fun _ => .error ()) "body" "subj" =
      { eventType := "Email", subject := "subj", deadline := "none", urgency := "low",
        importance := "low", score := "none", registrationLink := "none",
        summary := "Could not extract information." } :=
  claim_C2_extract_fallback (fun _ => .error ()) "body" "subj" rfl

/-- Claim C3: for every deadline text matching none of the recognized
phrases (today, tomorrow, day after tomorrow, none, the `within N
hours` pattern) and none of the five date formats, `parseDeadline`
returns exactly `reference + 7 days` — the same result as for the
literal text "none". -/
theorem claim_C3_unrecognized_fallback (s : String) (reference : Int)
    (h1 : jsNormalize s ≠ "today".data) (h2 : jsNormalize s ≠ "tomorrow".data)
    (h3 : jsNormalize s ≠ "day after tomorrow".data) (h4 : jsNormalize s ≠ "none".data)
    (h5 : findWithin (jsNormalize s) = none)
    (h6 : ∀ f ∈ formatsList, parseFmt f.1 (jsNormalize s) = none) :
    parseDeadline s reference = reference + 7 * dayMs ∧
    parseDeadline s reference = parseDeadline "none" reference := by
  have hmain : parseDeadline s reference = reference + 7 * dayMs := by
    unfold parseDeadline
    rw [if_neg h1, if_neg h2, if_neg h3, if_neg h4, h5]
    dsimp only
    rw [tryFormats_none formatsList (jsNormalize s) h6]
  refine ⟨hmain, hmain.trans ?_⟩
  unfold parseDeadline
  rw [if_neg (by decide), if_neg (by decide), if_neg (by decide), if_pos (by decide)]

/-- Witness for C3: the unrecognized text "sometime soon" resolves to
reference + 7 days, like "none". -/
theorem claim_C3_witness :
    parseDeadline "sometime soon" 0 = 0 + 7 * dayMs ∧
    parseDeadline "sometime soon" 0 = parseDeadline "none" 0 :=
  claim_C3_unrecognized_fallback "sometime soon" 0 (by decide) (by decide)
    (by decide) (by decide) (by decide) (by decide)

/-- Claim C4: a model response that parses to fewer lines than expected
(here three lines) still yields a complete 8-field record: each present
line is label-stripped (or its own default if empty after stripping)
and every absent field gets its own per-field default — defaults apply
per field, not only on total failure. -/
theorem claim_C4_per_field_defaults (gen : String → Except Unit String)
    (body subject text : String) (l0 l1 l2 : List Char)
    (hok : gen (buildPrompt body) = .ok text)
    (hlines : geminiLines text = [l0, l1, l2]) :
    extractInfoWithGemini gen body subject =
      { eventType := if replaceFirst l0 "Event Type: ".data = [] then "Email"
                     else String.mk (replaceFirst l0 "Event Type: ".data)
        subject := if replaceFirst l1 "Subject: ".data = [] then subject
                   else String.mk (replaceFirst l1 "Subject: ".data)
        deadline := if replaceFirst l2 "Deadline: ".data = [] then "none"
                    else String.mk (replaceFirst l2 "Deadline: ".data)
        urgency := "low"
        importance := "low"
        score := "none"
        registrationLink := "none"
        summary := "No summary." } := by
  unfold extractInfoWithGemini
  rw [hok]
  dsimp only
  rw [hlines]
  rfl

set_option maxRecDepth 100000 in
/-- Witness for C4: a concrete 3-line response produces the three
stripped fields and per-field defaults for the rest. -/
theorem claim_C4_witness :
    extractInfoWithGemini
        (fun _ => .ok "Event Type: Hackathon\nSubject: AI contest\nDeadline: tomorrow")
        "b" "s" =
      { eventType := "Hackathon", subject := "AI contest", deadline := "tomorrow",
        urgency := "low", importance := "low", score := "none",
        registrationLink := "none", summary := "No summary." } := by
  rw [claim_C4_per_field_defaults
    (fun _ => .ok "Event Type: Hackathon\nSubject: AI contest\nDeadline: tomorrow")
    "b" "s" "Event Type: Hackathon\nSubject: AI contest\nDeadline: tomorrow"
    "Event Type: Hackathon".data "Subject: AI contest".data "Deadline: tomorrow".data
    rfl (by decide)]
  decide

set_option maxRecDepth 100000 in
/-- Counterexample to C5 as stated: the pipeline CAN raise.  A model
response whose deadline is "within 10000000000000 hours" produces a
deadline outside the representable `Date` range, so `toISOString`
throws a `RangeError` that propagates out of `processEmails` — the
batch aborts instead of returning one task per email. -/
theorem claim_C5_counterexample :
    processEmails (fun _ => 0)
      (fun _ => .ok "Event Type: Email\nSubject: s\nDeadline: within 10000000000000 hours\nUrgency: low\nImportance: low\nScore: none\nRegistration Link: none\nSummary: ok")
      [⟨"s", "b"⟩] = .error () := by
  decide

/-- Claim C5 (amended): for any ordered sequence of raw emails the
pipeline returns one task per input email, in input order, provided
each email's computed deadline serializes (stays within the
representable `Date` range, as every realistic deadline does); an
extraction failure for some email never causes an error — its fallback
record still yields a task — and does not block or reorder the others.
(As stated the claim is refuted by `claim_C5_counterexample`: an
absurdly large "within N hours" deadline makes serialization throw.) -/
theorem claim_C5_amended (clock : Nat → Int) (gen : String → Except Unit String)
    (emails : List RawEmail)
    (h : ∀ i, i < emails.length →
      (emails[i]?).bind
        (fun e => assembleOne gen e (clock (2 * i)) (clock (2 * i + 1))) ≠ none) :
    ∃ ts : List Task, processEmails clock gen emails = .ok ts ∧
      ts.length = emails.length ∧
      ∀ i : Nat, ts[i]? = (emails[i]?).bind
        (fun e => assembleOne gen e (clock (2 * i)) (clock (2 * i + 1))) := by
  have hspec := processEmailsAux_spec clock gen emails 0 (by simpa using h)
  simpa [processEmails] using hspec

set_option maxRecDepth 100000 in
/-- Witness for C5: a 3-email batch in which the middle email's Gemini
call fails still yields exactly three tasks in input order. -/
theorem claim_C5_witness :
    ∃ ts : List Task,
      processEmails (fun _ => 0)
        (fun p => if p = buildPrompt "b2" then .error () else .ok "Event Type: X\nSubject: s\nDeadline: today\nUrgency: low\nImportance: low\nScore: 1\nRegistration Link: none\nSummary: ok")
        [⟨"s1", "b1"⟩, ⟨"s2", "b2"⟩, ⟨"s3", "b3"⟩] = .ok ts ∧
      ts.length = [⟨"s1", "b1"⟩, ⟨"s2", "b2"⟩, (⟨"s3", "b3"⟩ : RawEmail)].length ∧
      ∀ i : Nat, ts[i]? =
        ([⟨"s1", "b1"⟩, ⟨"s2", "b2"⟩, (⟨"s3", "b3"⟩ : RawEmail)][i]?).bind
          (fun e => assembleOne
            (fun p => if p = buildPrompt "b2" then .error () else .ok "Event Type: X\nSubject: s\nDeadline: today\nUrgency: low\nImportance: low\nScore: 1\nRegistration Link: none\nSummary: ok")
            e ((fun _ => (0 : Int)) (2 * i)) ((fun _ => (0 : Int)) (2 * i + 1))) :=
  claim_C5_amended (fun _ => 0)
    (fun p => if p = buildPrompt "b2" then .error () else .ok "Event Type: X\nSubject: s\nDeadline: today\nUrgency: low\nImportance: low\nScore: 1\nRegistration Link: none\nSummary: ok")
    [⟨"s1", "b1"⟩, ⟨"s2", "b2"⟩, ⟨"s3", "b3"⟩] (by decide)

set_option maxRecDepth 100000 in
/-- Counterexample to C6 as stated: the reference "now" is NOT captured
once and threaded through.  `parseDeadline` (line 213) and
`categorizeTask` (line 250) each take their own `new Date()`; with a
clock advancing 2 hours between reads and a deadline of
"within 73 hours", the pipeline classifies Important (71 whole hours
remain at classification time) while the single-captured-reference
semantics the spec describes classifies Later. -/
theorem claim_C6_counterexample :
    processEmails (fun n => (n : Int) * 7200000)
      (fun _ => .ok "Event Type: Email\nSubject: s\nDeadline: within 73 hours\nUrgency: low\nImportance: low\nScore: none\nRegistration Link: none\nSummary: ok")
      [⟨"s", "b"⟩]
    ≠ processEmailsSingleReference ((fun n => (n : Int) * 7200000) 0)
      (fun _ => .ok "Event Type: Email\nSubject: s\nDeadline: within 73 hours\nUrgency: low\nImportance: low\nScore: none\nRegistration Link: none\nSummary: ok")
      [⟨"s", "b"⟩] := by
  decide

/-- Claim C6 (amended): each of `parseDeadline` and `categorizeTask`
captures its own fresh `new Date()` (successive clock reads `2*i` and
`2*i + 1` for email `i`); the two references within one email need not
be equal.  Only when the clock does not advance during the run does the
pipeline coincide with the spec's single-captured-reference semantics
(`processEmailsSingleReference`). -/
theorem claim_C6_amended (c : Int) (gen : String → Except Unit String)
    (emails : List RawEmail) :
    processEmails (fun _ => c) gen emails = processEmailsSingleReference c gen emails :=
  processEmailsAux_const c gen emails 0

/-- Claim C7: for every reference instant, `parseDeadline "tomorrow"`
returns reference + 1 day at the same time-of-day as the reference — it
is not forced to end-of-day — unlike `"today"`, whose result always has
time-of-day 23:59:59.000 (86399000 ms), and unlike any successfully
parsed date from a format lacking a time component, which is likewise
forced to 23:59:59.000. -/
theorem claim_C7_tomorrow (reference : Int) :
    parseDeadline "tomorrow" reference = reference + dayMs ∧
    parseDeadline "tomorrow" reference % dayMs = reference % dayMs ∧
    parseDeadline "today" reference % dayMs = 86399000 ∧
    ∀ p : DateParts, partsToInstant p false % dayMs = 86399000 := by
  have htom : parseDeadline "tomorrow" reference = reference + dayMs := by
    unfold parseDeadline
    rw [if_neg (by decide), if_pos (by decide)]
  refine ⟨htom, ?_, ?_, ?_⟩
  · rw [htom]
    unfold dayMs
    omega
  · unfold parseDeadline
    rw [if_pos (by decide)]
    exact mkDateArgs_endOfDay _ _ _
  · intro p
    unfold partsToInstant dayMs
    generalize daysFromCivil (p.y : Int) (p.mo : Int) (p.d : Int) = D
    simp only [Bool.false_eq_true, if_false]
    omega

/-- Claim C8: every task the pipeline produces carries a deadline
string whose ISO-8601 parse recovers exactly the serialized instant —
no precision loss in the round-trip. -/
theorem claim_C8_roundtrip (clock : Nat → Int) (gen : String → Except Unit String)
    (emails : List RawEmail) (tasks : List Task)
    (h : processEmails clock gen emails = .ok tasks) :
    ∀ task ∈ tasks, ∃ t : Int,
      toISOString t = some task.deadline ∧ parseISO task.deadline = some t := by
  intro task hmem
  obtain ⟨t, ht⟩ := processEmailsAux_mem clock gen emails 0 tasks h task hmem
  exact ⟨t, ht, toISOString_roundTrip t _ ht⟩

set_option maxRecDepth 100000 in
/-- Witness for C8: the task produced from a failing extraction (7-day
fallback deadline) round-trips its serialized deadline. -/
theorem claim_C8_witness :
    ∃ t : Int, toISOString t = some "1970-01-08T00:00:00.000Z" ∧
      parseISO "1970-01-08T00:00:00.000Z" = some t :=
  claim_C8_roundtrip (fun _ => 0) (fun _ => .error ()) [⟨"s", "b"⟩]
    [{ eventType := "Email", subject := "s", deadline := "1970-01-08T00:00:00.000Z",
       urgency := "low", importance := "low", score := "none", priority := laterLabel,
       registrationLink := "none", summary := "Could not extract information." }]
    (by decide)
    { eventType := "Email", subject := "s", deadline := "1970-01-08T00:00:00.000Z",
      urgency := "low", importance := "low", score := "none", priority := laterLabel,
      registrationLink := "none", summary := "Could not extract information." }
    (by decide)

/-- Claim C9: the "within N hours" rule is an unanchored substring
match: whenever the lowercased trimmed text is none of the four literal
phrases but contains "within N hours" anywhere (leftmost occurrence,
greedy digits — `findWithin`), the result is reference + N hours, and
the absolute date formats are never tried. -/
theorem claim_C9_within_substring (s : String) (reference : Int) (n : Nat)
    (h1 : jsNormalize s ≠ "today".data) (h2 : jsNormalize s ≠ "tomorrow".data)
    (h3 : jsNormalize s ≠ "day after tomorrow".data) (h4 : jsNormalize s ≠ "none".data)
    (h5 : findWithin (jsNormalize s) = some n) :
    parseDeadline s reference = reference + (n : Int) * hourMs := by
  unfold parseDeadline
  rw [if_neg h1, if_neg h2, if_neg h3, if_neg h4, h5]

/-- Witness for C9: "please respond within 2 hours today" is not the
literal "today", matches the substring rule with N = 2, and resolves to
reference + 2 hours. -/
theorem claim_C9_witness :
    parseDeadline "please respond within 2 hours today" 0 = 0 + ((2 : Nat) : Int) * hourMs :=
  claim_C9_within_substring "please respond within 2 hours today" 0 2
    (by decide) (by decide) (by decide) (by decide) (by decide)

/-- Claim C10: in the response parsing, a per-field default is
substituted only when line `i` is missing or empty after removing the
first occurrence of its expected label; a non-empty line that does not
carry the label is stored verbatim (minus any first occurrence of the
label substring), so after a reordered or unlabeled response the
urgency and importance fields can hold arbitrary strings outside
the high/medium/low enum — the parser does not enforce the enum. -/
theorem claim_C10_verbatim_hints (gen : String → Except Unit String)
    (body subject text : String) (lu li : List Char)
    (hok : gen (buildPrompt body) = .ok text)
    (hu : (geminiLines text)[3]? = some lu)
    (hi : (geminiLines text)[4]? = some li)
    (hnu : replaceFirst lu "Urgency: ".data ≠ [])
    (hni : replaceFirst li "Importance: ".data ≠ []) :
    (extractInfoWithGemini gen body subject).urgency
        = String.mk (replaceFirst lu "Urgency: ".data) ∧
    (extractInfoWithGemini gen body subject).importance
        = String.mk (replaceFirst li "Importance: ".data) := by
  unfold extractInfoWithGemini
  rw [hok]
  dsimp only
  constructor
  · simp only [lineField, hu]
    rw [if_neg hnu]
  · simp only [lineField, hi]
    rw [if_neg hni]

set_option maxRecDepth 100000 in
/-- Witness for C10: a reordered response whose fourth line is
"Importance: high" and fifth is "Urgency: low" leaves the urgency field
holding the verbatim string "Importance: high" — outside the
high/medium/low enum — and the importance field holding
"Urgency: low". -/
theorem claim_C10_witness :
    (extractInfoWithGemini
        (fun _ => .ok "Event Type: X\nSubject: s\nDeadline: none\nImportance: high\nUrgency: low\nScore: 1\nRegistration Link: none\nSummary: ok")
        "b" "s").urgency = "Importance: high" ∧
    "Importance: high" ≠ "high" ∧ "Importance: high" ≠ "medium" ∧
    "Importance: high" ≠ "low" :=
  ⟨((claim_C10_verbatim_hints
      (fun _ => .ok "Event Type: X\nSubject: s\nDeadline: none\nImportance: high\nUrgency: low\nScore: 1\nRegistration Link: none\nSummary: ok")
      "b" "s"
      "Event Type: X\nSubject: s\nDeadline: none\nImportance: high\nUrgency: low\nScore: 1\nRegistration Link: none\nSummary: ok"
      "Importance: high".data "Urgency: low".data
      rfl (by decide) (by decide) (by decide) (by decide)).1).trans (by decide),
   by decide, by decide, by decide⟩

end MailClassifier

namespace MailClassifier

/-! ## Behavioural checks on concrete inputs -/

example : geminiLines "a\n\nb" = [['a'], ['b']] := by decide

example : replaceFirst "xUrgency: low".data "Urgency: ".data = "xlow".data := by decide

example :
    extractInfoWithGemini (fun _ => .error ()) "body" "subj" = geminiFallback "subj" := rfl

example :
    (extractInfoWithGemini (fun _ => .ok "Event Type: X\nSubject: s") "b" "subj").deadline
      = "none" := by decide

-- 2025-06-14 is day 20253; civilFromDays round-trips on it
example : civilFromDays 20253 = (2025, 6, 14) := by decide
example : daysFromCivil 2025 6 14 = 20253 := by decide
example : daysFromCivil 1970 1 1 = 0 := by decide
example : civilFromDays (-1) = (1969, 12, 31) := by decide

example : parseDeadline "Tomorrow " 1000 = 86401000 := by decide
example : parseDeadline "none" 0 = 604800000 := by decide
example : parseDeadline "within 5 hours" 0 = 18000000 := by decide
example : parseDeadline "garbage text" 0 = 604800000 := by decide
-- 14/06/2025 is day 20253: end of day 23:59:59
example : parseDeadline "14/06/2025" 0 = 20253 * 86400000 + 86399000 := by decide
example : parseDeadline "14/06/2025 18:30" 0 = 20253 * 86400000 + 66600000 := by decide
example : parseDeadline "2025-06-14" 0 = 20253 * 86400000 + 86399000 := by decide
example : parseDeadline "June 14, 2025" 0 = 20253 * 86400000 + 86399000 := by decide
example : parseDeadline "14 Jun 2025" 0 = 20253 * 86400000 + 86399000 := by decide
example : parseDeadline "31/02/2025" 0 = 604800000 := by decide
example : parseDeadline "today" 40000000 = 86399000 := by decide

example : categorizeTask (geminiFallback "s") 3600000 0 = urgentLabel := by decide
example : categorizeTask (geminiFallback "s") (48 * 3600000) 0 = importantLabel := by decide
example : categorizeTask (geminiFallback "s") (200 * 3600000) 0 = laterLabel := by decide

example : toISOString 0 = some "1970-01-01T00:00:00.000Z" := by decide
example : toISOString 1749945599999 = some "2025-06-14T23:59:59.999Z" := by decide
example : parseISO "2025-06-14T23:59:59.999Z" = some 1749945599999 := by decide
example : toISOString (-86400000) = some "1969-12-31T00:00:00.000Z" := by decide
example : parseISO "1969-12-31T00:00:00.000Z" = some (-86400000) := by decide
example : toISOString (-65846707200000) = some "-000117-05-27T08:00:00.000Z" := by decide
example : parseISO "-000117-05-27T08:00:00.000Z" = some (-65846707200000) := by decide
example : toISOString 8640000000000000 = some "+275760-09-13T00:00:00.000Z" := by decide
example : parseISO "+275760-09-13T00:00:00.000Z" = some 8640000000000000 := by decide
example : toISOString 8640000000000001 = none := by decide

example :
    processEmails (fun _ => 0) (fun _ => .error ()) [⟨"s", "b"⟩] =
      .ok [{ eventType := "Email", subject := "s",
             deadline := "1970-01-08T00:00:00.000Z", urgency := "low",
             importance := "low", score := "none", priority := laterLabel,
             registrationLink := "none",
             summary := "Could not extract information." }] := by decide

end MailClassifier
